import Mathlib

/-!
Verification of the feos thermodynamics library against its specification.

Shallow embedding of the parts of the source reached by the claims:
* `feos-core/src/equation_of_state/residual.rs` — the `Residual` trait
  (`validate_moles`, `evaluate_residual`, `evaluate_residual_contributions`)
  and the `NoResidual` dummy model;
* `feos-core/src/python/state.rs` — the `PyState` constructor's
  `density_initialization` parsing, `PyState::spinodal`, and
  `PyStateVec::__getitem__`;
* `src/estimator/estimator.rs` — `Estimator::cost` and `Estimator::par_cost`;
* `src/pcsaft/parameters.rs` — `PcSaftRecord` / `PcSaftRecordSerde`
  conversions and `PcSaftParameters::from_records`.

Modelling conventions: `f64` values are embedded as `ℚ` except where the
source applies `sqrt` (there `ℝ` is used); in the estimator, where the
result turns on rounding, every `f64` operation goes through an explicit
IEEE-754 round-to-nearest-even model (`roundF64`); machine-word indices
are `Int` with explicit two's-complement casts; fallible code returns
`Except`/`Option`, and a Rust `panic!` is a computation that never returns
a value, modelled as `Option.none`.
-/

namespace Feos

/-- The variants of the `EosError` enum reached by the embedded code
(`EosError::IncompatibleComponents(usize, usize)` carries the model's
component count and the supplied length). -/
inductive EosError where
  | IncompatibleComponents (components : ℕ) (given : ℕ)
  | NotConverged (method : String)
deriving DecidableEq, Repr

/-- Embeds `StateHD<D>`: state descriptor at dual-number precision `D`
(temperature, volume, mole numbers). -/
structure StateHD (D : Type) where
  temperature : D
  volume : D
  moles : List D

/-- A `dyn HelmholtzEnergy` trait object: a named Helmholtz-energy
contribution, evaluated on a state and the shared temperature-dependent
property bundle (`c.to_string()` / `c.helmholtz_energy(state, &properties)`). -/
structure HelmholtzEnergy (Props D : Type) where
  to_string : String
  helmholtz_energy : StateHD D → Props → D

/-- The `Residual` trait (one fixed dual-number precision `D`, associated
type `Properties<D> = Props`): component count (from the `Components`
supertrait), temperature-dependent property bundle, max-density estimate,
ordered contribution list, and the molar-weight vector.  `molar_weight`
returns `MolarWeight<Array1<f64>>` in Rust; a model whose implementation
panics (never returns a value) is embedded as `none`. -/
structure ResidualModel (Props D : Type) where
  components : ℕ
  properties : D → Props
  compute_max_density : List ℚ → ℚ
  contributions : List (HelmholtzEnergy Props D)
  molar_weight : Option (List ℚ)

variable {Props D : Type}

/-- Embeds `Residual::evaluate_residual`: compute the property bundle at the
state's temperature, then sum `helmholtz_energy` over the contribution
list (iterator `sum`, declaration order). -/
def ResidualModel.evaluate_residual [AddCommMonoid D]
    (m : ResidualModel Props D) (state : StateHD D) : D :=
  let properties := m.properties state.temperature
  (m.contributions.map (fun c => c.helmholtz_energy state properties)).sum

/-- Embeds `Residual::evaluate_residual_contributions`: the same per-contribution
values, each paired with the contribution's string representation, in
declaration order. -/
def ResidualModel.evaluate_residual_contributions
    (m : ResidualModel Props D) (state : StateHD D) : List (String × D) :=
  let properties := m.properties state.temperature
  m.contributions.map (fun c => (c.to_string, c.helmholtz_energy state properties))

/-- Embeds `Residual::validate_moles`:
`let l = moles.map_or(1, |m| m.len());` then if `self.components() == l`
return the supplied vector (or `Moles::from_reduced(Array::ones(1))` when
`None`), else `Err(EosError::IncompatibleComponents(self.components(), l))`. -/
def ResidualModel.validate_moles (m : ResidualModel Props D)
    (moles : Option (List ℚ)) : Except EosError (List ℚ) :=
  let l := match moles with
    | none => 1
    | some mo => mo.length
  if m.components = l then
    match moles with
    | some mo => Except.ok mo
    | none => Except.ok (List.replicate 1 1)
  else
    Except.error (EosError.IncompatibleComponents m.components l)

/-- Embeds `Residual::max_density`: validate the composition, then apply the
model's `compute_max_density` to the reduced mole numbers. -/
def ResidualModel.max_density (m : ResidualModel Props D)
    (moles : Option (List ℚ)) : Except EosError ℚ := do
  let mr ← m.validate_moles moles
  return m.compute_max_density mr

/-- Embeds `NoResidual(pub usize)`: the dummy residual model with `n` components,
no contributions, `compute_max_density = 1.0`, and a `molar_weight`
implementation that is `panic!("No mass specific properties are available
for this model!")` — it never returns a value, embedded as `none`. -/
def NoResidual (D : Type) (n : ℕ) : ResidualModel Unit D where
  components := n
  properties := fun _ => ()
  compute_max_density := fun _ => 1
  contributions := []
  molar_weight := none

/-- Modelled from the spec: the mass-specific property accessors themselves
live in `feos-core/src/state` (not under `src/`); per the spec a
mass-specific property divides the molar property by the molar weight and
"mass-specific properties are unavailable, signaled as a hard failure, not
silently defaulted" when the molar-weight vector is absent. -/
def ResidualModel.specific_property (m : ResidualModel Props D)
    (molar_value : List ℚ) : Option (List ℚ) :=
  m.molar_weight.map (fun w => (molar_value.zip w).map (fun p => p.1 / p.2))

/-- The `DensityInitialization` enum: method used to seed the density
iteration of the state-construction solver. -/
inductive DensityInitialization where
  | Vapor
  | Liquid
  | InitialDensity (d : ℚ)
  | None
deriving DecidableEq, Repr

/-- The Python values relevant to the `density_initialization : Option<&Bound<PyAny>>`
argument of `PyState::new`: an object from which `extract::<String>()`
succeeds, one from which `extract::<Density>()` succeeds, or any other
object (the two extractions are mutually exclusive on actual Python
values). -/
inductive PyAny where
  | str (s : String)
  | density (d : ℚ)
  | other
deriving DecidableEq

/-- The `density_initialization` parsing in `PyState::new`: a missing
argument maps to `DensityInitialization::None`; the strings `"vapor"` and
`"liquid"` map to the corresponding hints; any other string raises a
`PyValueError`; a molar-density quantity maps to
`DensityInitialization::InitialDensity`; anything else raises a
`PyValueError`.  The error type models `PyErr` by its message. -/
def parse_density_initialization : Option PyAny → Except String DensityInitialization
  | Option.none => Except.ok DensityInitialization.None
  | some (PyAny.str d) =>
      if d = "vapor" then Except.ok DensityInitialization.Vapor
      else if d = "liquid" then Except.ok DensityInitialization.Liquid
      else Except.error "density_initialization must be vapor or liquid."
  | some (PyAny.density d) => Except.ok (DensityInitialization.InitialDensity d)
  | some PyAny.other =>
      Except.error "density_initialization must be vapor or liquid or a molar density as SINumber has to be provided."

/-- Embeds `PyState::new` restricted to the data flow of the
`density_initialization` argument: the argument is parsed into a
`DensityInitialization` and the `?` on `density_init` propagates the
`PyValueError` before `State::new_full` (abstracted here as `resolve`,
since the state-construction solver is not under `src/`) is invoked. -/
def PyState.new {S : Type} (resolve : DensityInitialization → Except String S)
    (density_initialization : Option PyAny) : Except String S :=
  match parse_density_initialization density_initialization with
  | Except.error e => Except.error e
  | Except.ok hint => resolve hint

/-- Two's-complement `as usize` cast of an `isize` value. -/
def usizeOfIsize (i : Int) : ℕ := (i % (2 ^ 64)).toNat

/-- Embeds `PyStateVec::__getitem__`: add the length to a negative index, cast the
result `as usize`, and either return a clone of the state at that position
(when `(0..self.0.len()).contains(&(i as usize))`) or raise a
`PyIndexError`. -/
def PyStateVec.getitem {S : Type} (states : List S) (idx : Int) : Except String S :=
  let i : Int := if idx < 0 then (states.length : Int) + idx else idx
  let iu : ℕ := usizeOfIsize i
  if h : iu < states.length then Except.ok (states.get ⟨iu, h⟩)
  else Except.error "StateVec index out of range"

/-- Modelled from the spec: the density-iteration core of
`State::new_full` (`feos-core/src/state/mod.rs`) is not under `src/`; only
its caller `PyState::new` is.  One value of this structure abstracts the
bracketed density searches available for one construction request. -/
structure DensityIteration (S : Type) where
  /-- Modelled from the spec: the root obtained from the vapor-like
  bracket, which "starts near zero density". -/
  vapor_branch : Except EosError S
  /-- Modelled from the spec: the root obtained from the liquid-like
  bracket, which "starts near the max-density estimate". -/
  liquid_branch : Except EosError S
  /-- Modelled from the spec: the root obtained when iterating from an
  explicitly supplied initial density. -/
  from_density : ℚ → Except EosError S
  /-- Modelled from the spec: the total Helmholtz energy of a resolved
  state, used for stable branch selection. -/
  helmholtz_energy : S → ℚ

/-- Modelled from the spec: branch selection of the state-construction
solver (not under `src/`).  "Density initialization hint selects the
starting bracket ...; when unspecified and ambiguous, both brackets are
tried and the resulting state with lower total Helmholtz energy is
retained (stable branch selection)." -/
def DensityIteration.resolve {S : Type} (it : DensityIteration S) :
    DensityInitialization → Except EosError S
  | DensityInitialization.Vapor => it.vapor_branch
  | DensityInitialization.Liquid => it.liquid_branch
  | DensityInitialization.InitialDensity d => it.from_density d
  | DensityInitialization.None =>
      match it.vapor_branch, it.liquid_branch with
      | Except.ok sv, Except.ok sl =>
          Except.ok (if it.helmholtz_energy sv ≤ it.helmholtz_energy sl then sv else sl)
      | Except.ok sv, Except.error _ => Except.ok sv
      | Except.error _, Except.ok sl => Except.ok sl
      | Except.error e, Except.error _ => Except.error e

/-- Modelled from the spec: `State::spinodal` (in `feos-core/src/state`,
not under `src/`) locates "up to two V roots of dp/dV = 0 (low-density and
high-density branches) via bracketed root-finding" and "returns both roots
as two states (or fails if no sign change is found in a branch's
bracket)"; its Rust signature returns `EosResult<[State; 2]>`.  The two
`Option` arguments abstract the outcome of the bracketed search in each
branch. -/
def State.spinodal {S : Type} (low_root high_root : Option S) :
    Except EosError (S × S) :=
  match low_root, high_root with
  | some s1, some s2 => Except.ok (s1, s2)
  | _, _ => Except.error (EosError.NotConverged "spinodal")

/-- Embeds `PyState::spinodal`: destructures
`let [state1, state2] = State::spinodal(...)?` and returns the pair
`(PyState(state1), PyState(state2))`, propagating any error with `?`. -/
def PyState.spinodal {S : Type} (low_root high_root : Option S) :
    Except EosError (S × S) :=
  match State.spinodal low_root high_root with
  | Except.error e => Except.error e
  | Except.ok (state1, state2) => Except.ok (state1, state2)

/-- Embeds `PcSaftAssociationRecord`: association volume parameter `kappa_ab`
and association energy parameter `epsilon_k_ab`. -/
structure PcSaftAssociationRecord where
  kappa_ab : ℚ
  epsilon_k_ab : ℚ
deriving DecidableEq, Repr

/-- Embeds `PcSaftAssociationRecord::new`. -/
def PcSaftAssociationRecord.new (kappa_ab epsilon_k_ab : ℚ) :
    PcSaftAssociationRecord :=
  { kappa_ab := kappa_ab, epsilon_k_ab := epsilon_k_ab }

/-- Modelled from the spec: `AssociationRecord<P>` is declared in
`src/association` (association-site bookkeeping, an external collaborator
per the spec) which is not under `src/`; its shape — model parameters plus
the numbers of association sites of types A, B and C — is fixed by its
uses in `parameters.rs` (`AssociationRecord::new(parameters, na, nb, nc)`
and the field accesses `r.parameters`, `r.na`, `r.nb`, `r.nc`). -/
structure AssociationRecord (P : Type) where
  parameters : P
  na : ℚ
  nb : ℚ
  nc : ℚ
deriving DecidableEq, Repr

/-- Embeds `AssociationRecord::new`. -/
def AssociationRecord.new {P : Type} (parameters : P) (na nb nc : ℚ) :
    AssociationRecord P :=
  { parameters := parameters, na := na, nb := nb, nc := nc }

/-- Embeds `PcSaftRecordSerde`: the serialization proxy of `PcSaftRecord`, with
the single-site association parameters flattened into the optional
`kappa_ab`, `epsilon_k_ab`, `na`, `nb`, `nc` fields.  The entropy-scaling
coefficient arrays `[f64; 4]` / `[f64; 5]` are embedded as lists. -/
structure PcSaftRecordSerde where
  m : ℚ
  sigma : ℚ
  epsilon_k : ℚ
  mu : Option ℚ
  q : Option ℚ
  kappa_ab : Option ℚ
  epsilon_k_ab : Option ℚ
  na : Option ℚ
  nb : Option ℚ
  nc : Option ℚ
  association_records : List (AssociationRecord PcSaftAssociationRecord)
  viscosity : Option (List ℚ)
  diffusion : Option (List ℚ)
  thermal_conductivity : Option (List ℚ)
deriving DecidableEq, Repr

/-- Embeds `PcSaftRecord`: PC-SAFT pure-component parameters. -/
structure PcSaftRecord where
  m : ℚ
  sigma : ℚ
  epsilon_k : ℚ
  mu : Option ℚ
  q : Option ℚ
  association_records : List (AssociationRecord PcSaftAssociationRecord)
  viscosity : Option (List ℚ)
  diffusion : Option (List ℚ)
  thermal_conductivity : Option (List ℚ)
deriving DecidableEq, Repr

/-- Embeds `PcSaftRecord::new`: when any of `na`, `nb`, `nc` is supplied, push one
association record built from `kappa_ab`/`epsilon_k_ab`/`na`/`nb`/`nc`
(missing values defaulting to `0.0`) onto the supplied list. -/
def PcSaftRecord.new (m sigma epsilon_k : ℚ) (mu q : Option ℚ)
    (kappa_ab epsilon_k_ab na nb nc : Option ℚ)
    (association_records : List (AssociationRecord PcSaftAssociationRecord))
    (viscosity diffusion thermal_conductivity : Option (List ℚ)) :
    PcSaftRecord :=
  let association_records :=
    if na.isSome || nb.isSome || nc.isSome then
      association_records ++
        [AssociationRecord.new
          (PcSaftAssociationRecord.new (kappa_ab.getD 0) (epsilon_k_ab.getD 0))
          (na.getD 0) (nb.getD 0) (nc.getD 0)]
    else association_records
  { m := m, sigma := sigma, epsilon_k := epsilon_k, mu := mu, q := q
    association_records := association_records
    viscosity := viscosity, diffusion := diffusion
    thermal_conductivity := thermal_conductivity }

/-- Embeds `impl From<PcSaftRecordSerde> for PcSaftRecord`: delegate to
`PcSaftRecord::new`. -/
def PcSaftRecord.ofSerde (value : PcSaftRecordSerde) : PcSaftRecord :=
  PcSaftRecord.new value.m value.sigma value.epsilon_k value.mu value.q
    value.kappa_ab value.epsilon_k_ab value.na value.nb value.nc
    value.association_records value.viscosity value.diffusion
    value.thermal_conductivity

/-- Embeds `impl From<PcSaftRecord> for PcSaftRecordSerde`: when the record holds
exactly one association record, pop it and flatten its parameters into the
optional fields (leaving the list empty); otherwise set the five optional
fields to `None` and pass the list through unchanged. -/
def PcSaftRecordSerde.ofRecord (value : PcSaftRecord) : PcSaftRecordSerde :=
  match value.association_records with
  | [r] =>
    { m := value.m, sigma := value.sigma, epsilon_k := value.epsilon_k
      mu := value.mu, q := value.q
      kappa_ab := some r.parameters.kappa_ab
      epsilon_k_ab := some r.parameters.epsilon_k_ab
      na := some r.na, nb := some r.nb, nc := some r.nc
      association_records := []
      viscosity := value.viscosity, diffusion := value.diffusion
      thermal_conductivity := value.thermal_conductivity }
  | rs =>
    { m := value.m, sigma := value.sigma, epsilon_k := value.epsilon_k
      mu := value.mu, q := value.q
      kappa_ab := none, epsilon_k_ab := none
      na := none, nb := none, nc := none
      association_records := rs
      viscosity := value.viscosity, diffusion := value.diffusion
      thermal_conductivity := value.thermal_conductivity }

/-- Modelled from the spec: `PureRecord<M>` is declared in
`feos_core::parameter` (parameter parsing, an external collaborator per
the spec) which is not under `src/`; its shape is fixed by its uses in
`parameters.rs` (`record.identifier`, `record.molarweight`,
`record.model_record`). -/
structure PureRecord (M : Type) where
  identifier : String
  molarweight : ℚ
  model_record : M

/-- Embeds `PcSaftParameters`, restricted to the fields on the data path of the
pairwise interaction matrices.  The polar bookkeeping (`mu2`, `q2`,
`ndipole`, `nquadpole`, `dipole_comp`, `quadpole_comp`), the association
parameters, and the entropy-scaling coefficient matrices are omitted: they
do not feed `sigma_ij`, `e_k_ij` or `epsilon_k_ij`.  The `Array2`s are
embedded as n-by-n lists of rows; `e_k_ij` needs `f64::sqrt` and therefore
lives in `ℝ`.  `binary_records` is reduced to its `k_ij` entries
(`binary_records.map(|br| br.map(|br| br.k_ij))`), embedded as a total
index function standing for the n-by-n `Array2`. -/
structure PcSaftParameters where
  molarweight : List ℚ
  m : List ℚ
  sigma : List ℚ
  epsilon_k : List ℚ
  mu : List ℚ
  q : List ℚ
  sigma_ij : List (List ℚ)
  e_k_ij : List (List ℝ)
  epsilon_k_ij : List (List ℝ)
  pure_records : List (PureRecord PcSaftRecord)
  binary_records : Option (ℕ → ℕ → ℚ)

/-- Embeds `PcSaftParameters::from_records` (which always returns `Ok`): copy the
per-component parameter arrays out of the records (`mu`/`q` defaulting to
`0.0`), then fill the pairwise matrices by the double loop
`e_k_ij[[i, j]] = (epsilon_k[i] * epsilon_k[j]).sqrt()` and
`sigma_ij[[i, j]] = 0.5 * (sigma[i] + sigma[j])`, and finally
`epsilon_k_ij = e_k_ij * (1 - k_ij)` elementwise when binary records are
present (otherwise a clone of `e_k_ij`). -/
noncomputable def PcSaftParameters.from_records
    (pure_records : List (PureRecord PcSaftRecord))
    (binary_records : Option (ℕ → ℕ → ℚ)) : PcSaftParameters :=
  let n := pure_records.length
  let m : List ℚ := pure_records.map (fun r => r.model_record.m)
  let sigma : List ℚ := pure_records.map (fun r => r.model_record.sigma)
  let epsilon_k : List ℚ := pure_records.map (fun r => r.model_record.epsilon_k)
  let mu : List ℚ := pure_records.map (fun r => r.model_record.mu.getD 0)
  let q : List ℚ := pure_records.map (fun r => r.model_record.q.getD 0)
  let molarweight : List ℚ := pure_records.map (fun r => r.molarweight)
  let e_k_ij : List (List ℝ) := (List.range n).map (fun i => (List.range n).map (fun j =>
    Real.sqrt ((epsilon_k.getD i 0 : ℚ) * ((epsilon_k.getD j 0 : ℚ) : ℝ))))
  let sigma_ij : List (List ℚ) := (List.range n).map (fun i => (List.range n).map (fun j =>
    (1 / 2 : ℚ) * (sigma.getD i 0 + sigma.getD j 0)))
  let epsilon_k_ij : List (List ℝ) := match binary_records with
    | none => e_k_ij
    | some k_ij => (List.range n).map (fun i => (List.range n).map (fun j =>
        Real.sqrt ((epsilon_k.getD i 0 : ℚ) * ((epsilon_k.getD j 0 : ℚ) : ℝ)) *
          (1 - ((k_ij i j : ℚ) : ℝ))))
  { molarweight := molarweight, m := m, sigma := sigma
    epsilon_k := epsilon_k, mu := mu, q := q
    sigma_ij := sigma_ij, e_k_ij := e_k_ij, epsilon_k_ij := epsilon_k_ij
    pure_records := pure_records, binary_records := binary_records }

/-- Embeds `DataSet<U, E>` restricted to its `cost` capability: evaluating the
weighted property residuals of one experimental data set against an
equation of state `E` with a loss function `L`, returning an `Array1<f64>`
or an `EstimatorError`. -/
structure DataSet (E L Err : Type) where
  cost : E → L → Except Err (List ℚ)

/-- Embeds `Estimator<U, E>`: data sets with their weights and loss functions. -/
structure Estimator (E L Err : Type) where
  data : List (DataSet E L Err)
  weights : List ℚ
  losses : List L

variable {E L Err : Type}

/-- Rounds a real (rational) value to the nearest IEEE-754 binary64 value,
ties to even: the 53-bit significand model of `f64` with unbounded
exponent range (overflow, underflow and subnormals are not modelled; every
value reached in this development is well inside the normal range).  A
nonzero `q` is written as `± m * 2^e` with `2^52 ≤ m < 2^53` and `m` is
rounded to the nearest integer, ties to the even significand. -/
def roundF64 (q : ℚ) : ℚ :=
  if q = 0 then 0
  else
    let s : ℚ := if q < 0 then -1 else 1
    let a : ℚ := |q|
    let e : ℤ := Int.log 2 a - 52
    let m : ℚ := a * (2 : ℚ) ^ (-e)
    let n : ℤ := ⌊m⌋
    let r : ℚ := m - n
    let sig : ℤ :=
      if r < 1 / 2 then n
      else if 1 / 2 < r then n + 1
      else if 2 ∣ n then n else n + 1
    s * sig * (2 : ℚ) ^ e

/-- The `f64` division `a / b`: exact quotient, rounded. -/
def fdiv (a b : ℚ) : ℚ := roundF64 (a / b)

/-- The `f64` multiplication `a * b`: exact product, rounded. -/
def fmul (a b : ℚ) : ℚ := roundF64 (a * b)

/-- The `f64` addition `a + b`: exact sum, rounded. -/
def fadd (a b : ℚ) : ℚ := roundF64 (a + b)

/-- Embeds `self.weights.iter().sum::<f64>()`: the `Sum` impl for `f64`
folds `+` from `0.0`, each addition rounding. -/
def fsum (l : List ℚ) : ℚ := l.foldl fadd 0

/-- Embeds `ndarray::concatenate(Axis(0), &views)`: fails with a `ShapeError`
(converted into an `EstimatorError` by `?`) on an empty list of arrays,
otherwise chains them in order. -/
def concatenate (shapeErr : Err) : List (List ℚ) → Except Err (List ℚ)
  | [] => Except.error shapeErr
  | ls => Except.ok ls.flatten

/-- The iterator body of `Estimator::cost`:
`.enumerate().map(|(i, d)| Ok(d.cost(eos, self.losses[i])? * w[i])).collect::<Result<Vec<_>, _>>()`.
`* w[i]` is the elementwise `f64` scaling of the cost array.  Indexing
`losses[i]` or `w[i]` out of bounds panics (modelled as `none`); `collect`
stops at the first data-set error. -/
def seq_costs (eos : E) :
    List (DataSet E L Err) → List ℚ → List L →
      Option (Except Err (List (List ℚ)))
  | [], _, _ => some (Except.ok [])
  | d :: ds, w, ls =>
    match ls with
    | [] => none
    | li :: ls' =>
      match d.cost eos li with
      | Except.error e => some (Except.error e)
      | Except.ok ci =>
        match w with
        | [] => none
        | wi :: w' =>
          match seq_costs eos ds w' ls' with
          | none => none
          | some (Except.error e) => some (Except.error e)
          | some (Except.ok rest) =>
            some (Except.ok ((ci.map (fun x => fmul x wi)) :: rest))

/-- Embeds `Estimator::cost`: normalize the weights
(`arr1(&self.weights) / self.weights.iter().sum::<f64>()`), evaluate every
data set in order, scale by its weight, and concatenate the per-data-set
cost arrays. -/
def Estimator.cost (est : Estimator E L Err) (shapeErr : Err) (eos : E) :
    Option (Except Err (List ℚ)) :=
  let s := fsum est.weights
  let w := est.weights.map (fun wi => fdiv wi s)
  match seq_costs eos est.data w est.losses with
  | none => none
  | some (Except.error e) => some (Except.error e)
  | some (Except.ok costs) => some (concatenate shapeErr costs)

/-- The parallel iterator body of `Estimator::par_cost`:
`(&self.data, &w, &self.losses).into_par_iter().map(|(d, &w, l)| Ok(d.cost(eos, l.clone())? * w)).collect::<Result<Vec<_>, _>>()`.
Rayon's indexed collect preserves item order, so the successful outcome is
the in-order list of weighted cost arrays; the multi-zip truncates to the
shortest input. -/
def par_costs (eos : E) :
    List (DataSet E L Err × ℚ × L) → Except Err (List (List ℚ))
  | [] => Except.ok []
  | (d, wi, li) :: rest =>
    match d.cost eos li with
    | Except.error e => Except.error e
    | Except.ok ci =>
      match par_costs eos rest with
      | Except.error e => Except.error e
      | Except.ok others => Except.ok ((ci.map (fun x => fmul x wi)) :: others)

/-- Embeds `Estimator::par_cost`: normalize the weights through
`ws_inv = 1.0 / sum` and `wi * ws_inv`, evaluate all data sets on the
thread pool, and concatenate the per-data-set cost arrays. -/
def Estimator.par_cost (est : Estimator E L Err) (shapeErr : Err) (eos : E) :
    Except Err (List ℚ) :=
  let ws_inv := fdiv 1 (fsum est.weights)
  let w := est.weights.map (fun wi => fmul wi ws_inv)
  match par_costs eos (est.data.zip (w.zip est.losses)) with
  | Except.error e => Except.error e
  | Except.ok costs => concatenate shapeErr costs

end Feos

namespace Feos

/-- C1: `validate_moles` accepts `None` exactly when the model has one
component (returning the unit reference composition `Array::ones(1)`), and
returns a supplied vector unchanged exactly when its length equals the
component count, failing otherwise with
`IncompatibleComponents(components, length)`. -/
theorem validate_moles_spec {Props D : Type} (m : ResidualModel Props D)
    (mo : List ℚ) :
    (m.validate_moles none =
      if m.components = 1 then Except.ok [(1 : ℚ)]
      else Except.error (EosError.IncompatibleComponents m.components 1)) ∧
    (m.validate_moles (some mo) =
      if m.components = mo.length then Except.ok mo
      else Except.error (EosError.IncompatibleComponents m.components mo.length)) := by
  unfold ResidualModel.validate_moles
  refine ⟨?_, ?_⟩
  · split <;> simp_all [List.replicate]
  · split <;> simp_all

/-- C2: for every residual model and state, the total returned by
`evaluate_residual` is exactly the sum, in declaration order, of the
per-contribution values that `evaluate_residual_contributions` pairs with
the contribution names; producing the breakdown does not alter the total. -/
theorem evaluate_residual_eq_sum_of_contributions {Props D : Type}
    [AddCommMonoid D] (m : ResidualModel Props D) (state : StateHD D) :
    m.evaluate_residual state =
      ((m.evaluate_residual_contributions state).map Prod.snd).sum := by
  simp [ResidualModel.evaluate_residual,
    ResidualModel.evaluate_residual_contributions, List.map_map,
    Function.comp_def]

/-- C4: `NoResidual::molar_weight` never returns a value (its body is a
`panic!`), so every request for the molar weight — and hence every
mass-specific property — is an immediate hard failure, never a silently
defaulted result. -/
theorem noResidual_molar_weight_never_returns (D : Type) (n : ℕ)
    (v : List ℚ) :
    (NoResidual D n).molar_weight = none ∧
    (NoResidual D n).specific_property v = none := by
  exact ⟨rfl, rfl⟩

/-- C3: when the density-initialization hint is unspecified
(`DensityInitialization::None`) and both the vapor-like and the
liquid-like bracket produce a state, the constructor retains the state
with the lower total Helmholtz energy. -/
theorem ambiguous_branch_selects_lower_energy {S : Type}
    (it : DensityIteration S) (sv sl : S)
    (hv : it.vapor_branch = Except.ok sv)
    (hl : it.liquid_branch = Except.ok sl) :
    ∃ s, it.resolve DensityInitialization.None = Except.ok s ∧
      (s = sv ∨ s = sl) ∧
      it.helmholtz_energy s =
        min (it.helmholtz_energy sv) (it.helmholtz_energy sl) := by
  simp only [DensityIteration.resolve, hv, hl]
  by_cases hle : it.helmholtz_energy sv ≤ it.helmholtz_energy sl
  · refine ⟨sv, ?_, Or.inl rfl, ?_⟩
    · simp [hle]
    · rw [min_eq_left hle]
  · refine ⟨sl, ?_, Or.inr rfl, ?_⟩
    · simp [hle]
    · rw [min_eq_right (le_of_not_le hle)]

/-- Witness for C3: with a vapor-like root of energy 1 and a liquid-like
root of energy 2, the unhinted construction retains the vapor-like root. -/
theorem ambiguous_branch_selects_lower_energy_witness :
    ∃ s, DensityIteration.resolve
        { vapor_branch := Except.ok (1 : ℚ)
          liquid_branch := Except.ok 2
          from_density := fun d => Except.ok d
          helmholtz_energy := fun s => s }
        DensityInitialization.None = Except.ok s ∧
      (s = 1 ∨ s = 2) ∧ s = min (1 : ℚ) 2 :=
  ambiguous_branch_selects_lower_energy _ 1 2 rfl rfl

/-- C5: the spinodal operation either fails with a typed error or returns
exactly two states; a success is possible exactly when both the
low-density and the high-density branch produced a root, and it carries
precisely those two roots — never a single root or any other partial
result. -/
theorem spinodal_returns_two_states_or_error {S : Type}
    (low_root high_root : Option S) :
    (∀ s1 s2, PyState.spinodal low_root high_root = Except.ok (s1, s2) ↔
      low_root = some s1 ∧ high_root = some s2) ∧
    ((∃ e, PyState.spinodal low_root high_root = Except.error e) ∨
      ∃ s1 s2, PyState.spinodal low_root high_root = Except.ok (s1, s2)) := by
  cases low_root <;> cases high_root <;>
    simp [PyState.spinodal, State.spinodal]

/-- C6: the `State` constructor accepts as `density_initialization`
exactly omission, the string `"vapor"`, the string `"liquid"`, or a
molar-density quantity; each accepted form maps to the documented hint,
and every other value is rejected with the `PyValueError` before the
state-construction solver is reached. -/
theorem density_initialization_spec (di : Option PyAny) {S : Type}
    (resolve : DensityInitialization → Except String S) :
    ((∃ h, parse_density_initialization di = Except.ok h) ↔
      (di = Option.none ∨ di = some (PyAny.str "vapor") ∨
        di = some (PyAny.str "liquid") ∨ ∃ d, di = some (PyAny.density d))) ∧
    parse_density_initialization Option.none =
      Except.ok DensityInitialization.None ∧
    parse_density_initialization (some (PyAny.str "vapor")) =
      Except.ok DensityInitialization.Vapor ∧
    parse_density_initialization (some (PyAny.str "liquid")) =
      Except.ok DensityInitialization.Liquid ∧
    (∀ d, parse_density_initialization (some (PyAny.density d)) =
      Except.ok (DensityInitialization.InitialDensity d)) ∧
    (∀ e, parse_density_initialization di = Except.error e →
      PyState.new resolve di = Except.error e) := by
  refine ⟨?_, rfl, by simp [parse_density_initialization],
    by simp [parse_density_initialization], fun d => rfl, fun e he => ?_⟩
  · match di with
    | Option.none => simp [parse_density_initialization]
    | some (PyAny.str s) =>
      by_cases h1 : s = "vapor"
      · subst h1; simp [parse_density_initialization]
      · by_cases h2 : s = "liquid"
        · subst h2; simp [parse_density_initialization]
        · simp [parse_density_initialization, h1, h2]
    | some (PyAny.density d) => simp [parse_density_initialization]
    | some PyAny.other => simp [parse_density_initialization]
  · unfold PyState.new
    rw [he]

/-- Witness for C6: the string `"gas"` is rejected, and the rejection
reaches the caller unchanged no matter what the state-resolution step
would have produced. -/
theorem density_initialization_spec_witness :
    PyState.new (fun _ => Except.ok ()) (some (PyAny.str "gas")) =
      Except.error "density_initialization must be vapor or liquid." :=
  (density_initialization_spec (some (PyAny.str "gas"))
    (fun _ => Except.ok ())).2.2.2.2.2 _ rfl

/-- C10: for a `StateVec` of length `n` and any `isize` index, `__getitem__`
returns the state at position `idx` when `0 ≤ idx < n`, the state at
position `n + idx` when `-n ≤ idx < 0`, and the `PyIndexError` for every
other index — the two's-complement `as usize` cast never lands a
rejected index back inside the vector, and the function is total (it
never panics). -/
theorem getitem_spec {S : Type} (states : List S) (idx : Int)
    (hlen : (states.length : Int) < 2 ^ 63)
    (hlo : -(2 ^ 63) ≤ idx) (hhi : idx < 2 ^ 63) :
    (∀ h : 0 ≤ idx ∧ idx < (states.length : Int),
      PyStateVec.getitem states idx =
        Except.ok (states.get ⟨idx.toNat, by omega⟩)) ∧
    (∀ h : -(states.length : Int) ≤ idx ∧ idx < 0,
      PyStateVec.getitem states idx =
        Except.ok (states.get ⟨((states.length : Int) + idx).toNat, by omega⟩)) ∧
    ((idx < -(states.length : Int) ∨ (states.length : Int) ≤ idx) →
      PyStateVec.getitem states idx =
        Except.error "StateVec index out of range") := by
  refine ⟨fun h => ?_, fun h => ?_, fun h => ?_⟩ <;>
    simp only [PyStateVec.getitem, usizeOfIsize]
  · rw [if_neg (by omega : ¬ idx < 0)]
    have h2 : (idx % 2 ^ 64).toNat = idx.toNat := by omega
    simp only [h2]
    rw [dif_pos (by omega : idx.toNat < states.length)]
  · rw [if_pos h.2]
    have h2 : (((states.length : Int) + idx) % 2 ^ 64).toNat =
        ((states.length : Int) + idx).toNat := by omega
    simp only [h2]
    rw [dif_pos (by omega : ((states.length : Int) + idx).toNat < states.length)]
  · rcases h with h | h
    · rw [if_pos (by omega : idx < 0)]
      split
      · exfalso; omega
      · rfl
    · rw [if_neg (by omega : ¬ (idx < 0))]
      split
      · exfalso; omega
      · rfl

/-- Helper for C7: with matching weight length and every data-set cost
succeeding, the sequential iterator body agrees with the (order-preserving)
parallel iterator body over the zipped inputs. -/
theorem seq_costs_eq_par_costs {E L Err : Type} (eos : E)
    (ds : List (DataSet E L Err)) (ls : List L) (w : List ℚ)
    (hsucc : List.Forall₂ (fun d l => ∃ v, DataSet.cost d eos l = Except.ok v) ds ls)
    (hw : w.length = ds.length) :
    seq_costs eos ds w ls = some (par_costs eos (ds.zip (w.zip ls))) := by
  induction hsucc generalizing w with
  | nil =>
    cases w <;> simp [seq_costs, par_costs]
  | @cons d li ds' ls' hdl htail ih =>
    match w with
    | [] => simp at hw
    | wi :: w' =>
      obtain ⟨v, hv⟩ := hdl
      simp only [seq_costs, par_costs, hv, List.zip_cons_cons,
        ih w' (by simpa using hw), List.zip_eq_zipWith]
      split <;> simp_all [List.zip_eq_zipWith]

/-- Helper: `Int.log 2` is determined by a bracketing pair of powers. -/
theorem int_log2_eq {q : ℚ} {k : ℤ} (hq : 0 < q)
    (hlo : (2 : ℚ) ^ k ≤ q) (hhi : q < (2 : ℚ) ^ (k + 1)) : Int.log 2 q = k := by
  have hb : 1 < (2 : ℕ) := by norm_num
  have h1 : k ≤ Int.log 2 q := by
    rw [← Int.zpow_le_iff_le_log hb hq]
    exact_mod_cast hlo
  have h2 : Int.log 2 q < k + 1 := by
    rw [← Int.lt_zpow_iff_log_lt hb hq]
    exact_mod_cast hhi
  omega

/-- Helper: evaluation of `roundF64` when the scaled significand rounds
down (fractional part below one half). -/
theorem roundF64_eq_down (q : ℚ) (e n : ℤ) (hq : 0 < q)
    (hlo : (2 : ℚ) ^ (e + 52) ≤ q) (hhi : q < (2 : ℚ) ^ (e + 53))
    (hn1 : (n : ℚ) * (2 : ℚ) ^ e ≤ q)
    (hn2 : q < ((n : ℚ) + 1 / 2) * (2 : ℚ) ^ e) :
    roundF64 q = (n : ℚ) * (2 : ℚ) ^ e := by
  have h2e : (0 : ℚ) < (2 : ℚ) ^ e := zpow_pos (by norm_num) e
  have hlog : Int.log 2 q = e + 52 :=
    int_log2_eq hq hlo (by rw [show e + 52 + 1 = e + 53 by ring]; exact hhi)
  have hfloor : ⌊q * (2 : ℚ) ^ (-e)⌋ = n := by
    rw [Int.floor_eq_iff, zpow_neg, ← div_eq_mul_inv]
    refine ⟨(le_div_iff₀ h2e).mpr hn1, (div_lt_iff₀ h2e).mpr (hn2.trans_le ?_)⟩
    exact mul_le_mul_of_nonneg_right (by linarith) h2e.le
  have hr : q * (2 : ℚ) ^ (-e) - (n : ℚ) < 1 / 2 := by
    rw [zpow_neg, ← div_eq_mul_inv, sub_lt_iff_lt_add, div_lt_iff₀ h2e, add_comm]
    exact hn2
  simp only [roundF64]
  rw [if_neg hq.ne', if_neg (not_lt.mpr hq.le), abs_of_pos hq, hlog,
    show e + 52 - 52 = e by ring, hfloor, if_pos hr, one_mul]

/-- Helper: evaluation of `roundF64` when the scaled significand rounds
up (fractional part above one half). -/
theorem roundF64_eq_up (q : ℚ) (e n : ℤ) (hq : 0 < q)
    (hlo : (2 : ℚ) ^ (e + 52) ≤ q) (hhi : q < (2 : ℚ) ^ (e + 53))
    (hn1 : ((n : ℚ) + 1 / 2) * (2 : ℚ) ^ e < q)
    (hn2 : q < ((n : ℚ) + 1) * (2 : ℚ) ^ e) :
    roundF64 q = ((n : ℚ) + 1) * (2 : ℚ) ^ e := by
  have h2e : (0 : ℚ) < (2 : ℚ) ^ e := zpow_pos (by norm_num) e
  have hlog : Int.log 2 q = e + 52 :=
    int_log2_eq hq hlo (by rw [show e + 52 + 1 = e + 53 by ring]; exact hhi)
  have hfloor : ⌊q * (2 : ℚ) ^ (-e)⌋ = n := by
    rw [Int.floor_eq_iff, zpow_neg, ← div_eq_mul_inv]
    refine ⟨(le_div_iff₀ h2e).mpr (le_of_lt (lt_of_le_of_lt ?_ hn1)),
      (div_lt_iff₀ h2e).mpr hn2⟩
    exact mul_le_mul_of_nonneg_right (by linarith) h2e.le
  have hr : 1 / 2 < q * (2 : ℚ) ^ (-e) - (n : ℚ) := by
    rw [zpow_neg, ← div_eq_mul_inv, lt_sub_iff_add_lt, lt_div_iff₀ h2e, add_comm]
    exact hn1
  simp only [roundF64]
  rw [if_neg hq.ne', if_neg (not_lt.mpr hq.le), abs_of_pos hq, hlog,
    show e + 52 - 52 = e by ring, hfloor, if_neg (not_lt.mpr hr.le), if_pos hr,
    one_mul, Int.cast_add, Int.cast_one]

/-- Helper: a value that is exactly representable (a 53-bit significand
times a power of two) rounds to itself. -/
theorem roundF64_eq_self (q : ℚ) (e n : ℤ) (hq : 0 < q)
    (hlo : (2 : ℚ) ^ (e + 52) ≤ q) (hhi : q < (2 : ℚ) ^ (e + 53))
    (heq : q = (n : ℚ) * (2 : ℚ) ^ e) : roundF64 q = q := by
  have h2e : (0 : ℚ) < (2 : ℚ) ^ e := zpow_pos (by norm_num) e
  rw [roundF64_eq_down q e n hq hlo hhi (le_of_eq heq.symm)
    (by rw [heq]; exact mul_lt_mul_of_pos_right (by linarith) h2e)]
  exact heq.symm

/-- Counterexample for C7: on the weights `[0.5, 2.5]` (sum exactly `3.0`)
every data-set cost evaluation succeeds, yet `cost` and `par_cost` return
different arrays: `2.5 / 3.0` rounds to `7505999378950827 * 2^(-53)` while
`2.5 * (1.0 / 3.0)` evaluates to `7505999378950826 * 2^(-53)` — the two
weight normalizations differ by one ulp. -/
theorem cost_ne_par_cost :
    List.Forall₂ (fun d l => ∃ v, DataSet.cost d () l = Except.ok v)
      ([⟨fun _ _ => Except.ok []⟩, ⟨fun _ _ => Except.ok [1]⟩] :
        List (DataSet Unit Unit Unit)) [(), ()] ∧
    Estimator.cost
      (⟨[⟨fun _ _ => Except.ok []⟩, ⟨fun _ _ => Except.ok [1]⟩],
        [1 / 2, 5 / 2], [(), ()]⟩ : Estimator Unit Unit Unit) () () ≠
      some (Estimator.par_cost
        (⟨[⟨fun _ _ => Except.ok []⟩, ⟨fun _ _ => Except.ok [1]⟩],
          [1 / 2, 5 / 2], [(), ()]⟩ : Estimator Unit Unit Unit) () ()) := by
  have ha1 : fadd 0 ((1 : ℚ) / 2) = 1 / 2 := by
    unfold fadd
    rw [show (0 : ℚ) + 1 / 2 = 1 / 2 by norm_num]
    exact roundF64_eq_self (1 / 2) (-53) 4503599627370496 (by norm_num)
      (by norm_num) (by norm_num) (by push_cast; norm_num)
  have ha2 : fadd ((1 : ℚ) / 2) (5 / 2) = 3 := by
    unfold fadd
    rw [show (1 : ℚ) / 2 + 5 / 2 = 3 by norm_num]
    exact roundF64_eq_self 3 (-51) 6755399441055744 (by norm_num)
      (by norm_num) (by norm_num) (by push_cast; norm_num)
  have hfsum : fsum [(1 : ℚ) / 2, 5 / 2] = 3 := by
    show fadd (fadd 0 (1 / 2)) (5 / 2) = 3
    rw [ha1, ha2]
  have hw1 : fdiv ((5 : ℚ) / 2) 3 = 7505999378950827 / 9007199254740992 := by
    unfold fdiv
    rw [show (5 : ℚ) / 2 / 3 = 5 / 6 by norm_num]
    rw [roundF64_eq_up (5 / 6) (-53) 7505999378950826 (by norm_num)
      (by norm_num) (by norm_num) (by push_cast; norm_num)
      (by push_cast; norm_num)]
    push_cast
    norm_num
  have hinv : fdiv (1 : ℚ) 3 = 6004799503160661 / 18014398509481984 := by
    unfold fdiv
    rw [roundF64_eq_down (1 / 3) (-54) 6004799503160661 (by norm_num)
      (by norm_num) (by norm_num) (by push_cast; norm_num)
      (by push_cast; norm_num)]
    push_cast
    norm_num
  have hw1' : fmul ((5 : ℚ) / 2) (6004799503160661 / 18014398509481984) =
      7505999378950826 / 9007199254740992 := by
    unfold fmul
    rw [show (5 : ℚ) / 2 * (6004799503160661 / 18014398509481984) =
      30023997515803305 / 36028797018963968 by norm_num]
    rw [roundF64_eq_down _ (-53) 7505999378950826 (by norm_num)
      (by norm_num) (by norm_num) (by push_cast; norm_num)
      (by push_cast; norm_num)]
    push_cast
    norm_num
  have hid1 : fmul (1 : ℚ) (7505999378950827 / 9007199254740992) =
      7505999378950827 / 9007199254740992 := by
    unfold fmul
    rw [one_mul]
    exact roundF64_eq_self _ (-53) 7505999378950827 (by norm_num)
      (by norm_num) (by norm_num) (by push_cast; norm_num)
  have hid2 : fmul (1 : ℚ) (7505999378950826 / 9007199254740992) =
      7505999378950826 / 9007199254740992 := by
    unfold fmul
    rw [one_mul]
    exact roundF64_eq_self _ (-53) 7505999378950826 (by norm_num)
      (by norm_num) (by norm_num) (by push_cast; norm_num)
  refine ⟨List.Forall₂.cons ⟨[], rfl⟩
    (List.Forall₂.cons ⟨[1], rfl⟩ List.Forall₂.nil), ?_⟩
  simp only [Estimator.cost, Estimator.par_cost, seq_costs, par_costs,
    concatenate, hfsum, hinv, List.map_cons, List.map_nil, hw1, hw1',
    List.zip_cons_cons, List.zip_nil_right, hid1, hid2,
    List.flatten_cons, List.flatten_nil, List.nil_append, List.append_nil,
    ne_eq, Option.some.injEq, List.cons.injEq]
  norm_num

/-- C7 (amended): for every estimator whose weight list matches its data
list, for which every data set's cost evaluation succeeds, and whose two
weight normalizations round identically (`w[i]/sum` in `cost` versus
`w[i]*(1.0/sum)` in `par_cost`), the parallel `par_cost` returns exactly
the array the sequential `cost` returns — the same per-data-set weighted
values, concatenated in the same data-set order.  Parallel execution
itself introduces no difference; without the normalization proviso the two
arrays can differ by one ulp of the weights (see the counterexample). -/
theorem par_cost_eq_cost_of_equal_normalization {E L Err : Type}
    (est : Estimator E L Err) (shapeErr : Err) (eos : E)
    (hw : est.weights.length = est.data.length)
    (hsucc : List.Forall₂
      (fun d l => ∃ v, DataSet.cost d eos l = Except.ok v)
      est.data est.losses)
    (hnorm : est.weights.map (fun wi => fdiv wi (fsum est.weights)) =
      est.weights.map (fun wi => fmul wi (fdiv 1 (fsum est.weights)))) :
    est.cost shapeErr eos = some (est.par_cost shapeErr eos) := by
  have hseq := seq_costs_eq_par_costs eos est.data est.losses
    (est.weights.map (fun wi => fmul wi (fdiv 1 (fsum est.weights)))) hsucc
    (by simpa using hw)
  simp only [Estimator.cost, Estimator.par_cost, hnorm, hseq]
  split <;> simp_all

/-- Witness for C7: a two-data-set estimator with weights 1 and 3 (sum 4,
all normalized weights exactly representable, so the two normalizations
agree); both evaluation paths produce the weighted, concatenated cost
array. -/
theorem par_cost_eq_cost_of_equal_normalization_witness :
    Estimator.cost
      (⟨[⟨fun _ _ => Except.ok [1, 2]⟩, ⟨fun _ _ => Except.ok [3]⟩],
        [1, 3], [(), ()]⟩ : Estimator Unit Unit Unit) () () =
      some (Estimator.par_cost
        (⟨[⟨fun _ _ => Except.ok [1, 2]⟩, ⟨fun _ _ => Except.ok [3]⟩],
          [1, 3], [(), ()]⟩ : Estimator Unit Unit Unit) () ()) ∧
    Estimator.par_cost
      (⟨[⟨fun _ _ => Except.ok [1, 2]⟩, ⟨fun _ _ => Except.ok [3]⟩],
        [1, 3], [(), ()]⟩ : Estimator Unit Unit Unit) () () =
      Except.ok [1 / 4, 1 / 2, 9 / 4] := by
  have hb0 : fadd 0 (1 : ℚ) = 1 := by
    unfold fadd
    rw [show (0 : ℚ) + 1 = 1 by norm_num]
    exact roundF64_eq_self 1 (-52) 4503599627370496 (by norm_num)
      (by norm_num) (by norm_num) (by push_cast; norm_num)
  have hb1 : fadd (1 : ℚ) 3 = 4 := by
    unfold fadd
    rw [show (1 : ℚ) + 3 = 4 by norm_num]
    exact roundF64_eq_self 4 (-50) 4503599627370496 (by norm_num)
      (by norm_num) (by norm_num) (by push_cast; norm_num)
  have hbs : fsum [(1 : ℚ), 3] = 4 := by
    show fadd (fadd 0 1) 3 = 4
    rw [hb0, hb1]
  have hq1 : fdiv (1 : ℚ) 4 = 1 / 4 := by
    unfold fdiv
    exact roundF64_eq_self (1 / 4) (-54) 4503599627370496 (by norm_num)
      (by norm_num) (by norm_num) (by push_cast; norm_num)
  have hq3 : fdiv (3 : ℚ) 4 = 3 / 4 := by
    unfold fdiv
    exact roundF64_eq_self (3 / 4) (-53) 6755399441055744 (by norm_num)
      (by norm_num) (by norm_num) (by push_cast; norm_num)
  have hm1 : fmul (1 : ℚ) (1 / 4) = 1 / 4 := by
    unfold fmul
    rw [one_mul]
    exact roundF64_eq_self (1 / 4) (-54) 4503599627370496 (by norm_num)
      (by norm_num) (by norm_num) (by push_cast; norm_num)
  have hm2 : fmul (2 : ℚ) (1 / 4) = 1 / 2 := by
    unfold fmul
    rw [show (2 : ℚ) * (1 / 4) = 1 / 2 by norm_num]
    exact roundF64_eq_self (1 / 2) (-53) 4503599627370496 (by norm_num)
      (by norm_num) (by norm_num) (by push_cast; norm_num)
  have hm3 : fmul (3 : ℚ) (1 / 4) = 3 / 4 := by
    unfold fmul
    rw [show (3 : ℚ) * (1 / 4) = 3 / 4 by norm_num]
    exact roundF64_eq_self (3 / 4) (-53) 6755399441055744 (by norm_num)
      (by norm_num) (by norm_num) (by push_cast; norm_num)
  have hm9 : fmul (3 : ℚ) (3 / 4) = 9 / 4 := by
    unfold fmul
    rw [show (3 : ℚ) * (3 / 4) = 9 / 4 by norm_num]
    exact roundF64_eq_self (9 / 4) (-51) 5066549580791808 (by norm_num)
      (by norm_num) (by norm_num) (by push_cast; norm_num)
  refine ⟨par_cost_eq_cost_of_equal_normalization _ () () rfl
    (List.Forall₂.cons ⟨[1, 2], rfl⟩
      (List.Forall₂.cons ⟨[3], rfl⟩ List.Forall₂.nil)) ?_, ?_⟩
  · simp only [List.map_cons, List.map_nil, hbs, hq1, hq3, hm1, hm3]
  · simp only [Estimator.par_cost, par_costs, concatenate, hbs, hq1,
      List.map_cons, List.map_nil, hm1, hm2, hm3, hm9,
      List.zip_cons_cons, List.zip_nil_right,
      List.flatten_cons, List.flatten_nil, List.nil_append, List.append_nil]
    rfl

/-- C8: converting a `PcSaftRecord` into `PcSaftRecordSerde` and back
yields the identical record; a single association record is flattened into
the `kappa_ab`, `epsilon_k_ab`, `na`, `nb`, `nc` fields (the list becoming
empty) and faithfully reconstructed, and in every other case the
association-record list is passed through unchanged with all five optional
fields absent. -/
theorem pcsaft_record_roundtrip (r : PcSaftRecord) :
    PcSaftRecord.ofSerde (PcSaftRecordSerde.ofRecord r) = r ∧
    (∀ r0, r.association_records = [r0] →
      (PcSaftRecordSerde.ofRecord r).kappa_ab = some r0.parameters.kappa_ab ∧
      (PcSaftRecordSerde.ofRecord r).epsilon_k_ab = some r0.parameters.epsilon_k_ab ∧
      (PcSaftRecordSerde.ofRecord r).na = some r0.na ∧
      (PcSaftRecordSerde.ofRecord r).nb = some r0.nb ∧
      (PcSaftRecordSerde.ofRecord r).nc = some r0.nc ∧
      (PcSaftRecordSerde.ofRecord r).association_records = []) ∧
    (r.association_records.length ≠ 1 →
      (PcSaftRecordSerde.ofRecord r).association_records =
        r.association_records ∧
      (PcSaftRecordSerde.ofRecord r).kappa_ab = none ∧
      (PcSaftRecordSerde.ofRecord r).epsilon_k_ab = none ∧
      (PcSaftRecordSerde.ofRecord r).na = none ∧
      (PcSaftRecordSerde.ofRecord r).nb = none ∧
      (PcSaftRecordSerde.ofRecord r).nc = none) := by
  obtain ⟨m, sigma, epsilon_k, mu, q, ars, visc, diff, tc⟩ := r
  match ars with
  | [] =>
    refine ⟨rfl, fun r0 h => by simp at h, fun _ => ⟨rfl, rfl, rfl, rfl, rfl, rfl⟩⟩
  | [r0] =>
    refine ⟨rfl, fun r1 h => ?_, fun h => absurd rfl h⟩
    obtain rfl : r0 = r1 := by simpa using h
    exact ⟨rfl, rfl, rfl, rfl, rfl, rfl⟩
  | r0 :: r1 :: rest =>
    refine ⟨rfl, fun r2 h => by simp at h, fun _ => ⟨rfl, rfl, rfl, rfl, rfl, rfl⟩⟩

/-- Witness for C8: a record with one association record flattens into the
optional fields and round-trips to itself. -/
theorem pcsaft_record_roundtrip_witness :
    PcSaftRecord.ofSerde (PcSaftRecordSerde.ofRecord
      { m := 1, sigma := 2, epsilon_k := 3, mu := none, q := none
        association_records := [{ parameters := { kappa_ab := 4, epsilon_k_ab := 5 }
                                  na := 1, nb := 1, nc := 0 }]
        viscosity := none, diffusion := none, thermal_conductivity := none }) =
      { m := 1, sigma := 2, epsilon_k := 3, mu := none, q := none
        association_records := [{ parameters := { kappa_ab := 4, epsilon_k_ab := 5 }
                                  na := 1, nb := 1, nc := 0 }]
        viscosity := none, diffusion := none, thermal_conductivity := none } ∧
    (PcSaftRecordSerde.ofRecord
      { m := 1, sigma := 2, epsilon_k := 3, mu := none, q := none
        association_records := [{ parameters := { kappa_ab := 4, epsilon_k_ab := 5 }
                                  na := 1, nb := 1, nc := 0 }]
        viscosity := none, diffusion := none, thermal_conductivity := none }).kappa_ab =
      some 4 :=
  ⟨(pcsaft_record_roundtrip _).1, ((pcsaft_record_roundtrip _).2.1 _ rfl).1⟩

/-- Helper: reading a matrix built by a double loop over `0..n` at an
in-bounds index yields the loop body's value. -/
theorem getD_range_map {α : Type} {n i : ℕ} (hi : i < n) (f : ℕ → α) (d : α) :
    ((List.range n).map f).getD i d = f i := by
  rw [List.getD_eq_getElem?_getD, List.getElem?_map, List.getElem?_range hi]
  rfl

/-- C9: in every result of `PcSaftParameters::from_records`, the pairwise
matrices are symmetric and follow the combining rules
`sigma_ij[i][j] = (sigma[i] + sigma[j]) / 2` and
`e_k_ij[i][j] = sqrt(epsilon_k[i] * epsilon_k[j])` for all in-bounds
component indices `i`, `j`. -/
theorem from_records_combining_rules
    (pure_records : List (PureRecord PcSaftRecord))
    (binary_records : Option (ℕ → ℕ → ℚ)) (p : PcSaftParameters)
    (hp : p = PcSaftParameters.from_records pure_records binary_records)
    (i j : ℕ) (hi : i < pure_records.length) (hj : j < pure_records.length) :
    (p.sigma_ij.getD i []).getD j 0 =
      (p.sigma.getD i 0 + p.sigma.getD j 0) / 2 ∧
    (p.sigma_ij.getD i []).getD j 0 = (p.sigma_ij.getD j []).getD i 0 ∧
    (p.e_k_ij.getD i []).getD j 0 =
      Real.sqrt ((p.epsilon_k.getD i 0 : ℝ) * (p.epsilon_k.getD j 0 : ℝ)) ∧
    (p.e_k_ij.getD i []).getD j 0 = (p.e_k_ij.getD j []).getD i 0 := by
  subst hp
  simp only [PcSaftParameters.from_records, getD_range_map hi, getD_range_map hj]
  refine ⟨by ring, by ring, trivial, by rw [mul_comm]⟩

/-- Witness for C9: a two-component system (sigma 3 and 5, epsilon_k 100
and 400); the off-diagonal entries follow the combining rules and are
symmetric. -/
theorem from_records_combining_rules_witness :
    ((PcSaftParameters.from_records
        [⟨"a", 16, ⟨1, 3, 100, none, none, [], none, none, none⟩⟩,
          ⟨"b", 18, ⟨2, 5, 400, none, none, [], none, none, none⟩⟩]
        none).sigma_ij.getD 0 []).getD 1 0 =
      ((PcSaftParameters.from_records
        [⟨"a", 16, ⟨1, 3, 100, none, none, [], none, none, none⟩⟩,
          ⟨"b", 18, ⟨2, 5, 400, none, none, [], none, none, none⟩⟩]
        none).sigma.getD 0 0 +
        (PcSaftParameters.from_records
        [⟨"a", 16, ⟨1, 3, 100, none, none, [], none, none, none⟩⟩,
          ⟨"b", 18, ⟨2, 5, 400, none, none, [], none, none, none⟩⟩]
        none).sigma.getD 1 0) / 2 ∧
    ((PcSaftParameters.from_records
        [⟨"a", 16, ⟨1, 3, 100, none, none, [], none, none, none⟩⟩,
          ⟨"b", 18, ⟨2, 5, 400, none, none, [], none, none, none⟩⟩]
        none).sigma_ij.getD 0 []).getD 1 0 =
      ((PcSaftParameters.from_records
        [⟨"a", 16, ⟨1, 3, 100, none, none, [], none, none, none⟩⟩,
          ⟨"b", 18, ⟨2, 5, 400, none, none, [], none, none, none⟩⟩]
        none).sigma_ij.getD 1 []).getD 0 0 ∧
    ((PcSaftParameters.from_records
        [⟨"a", 16, ⟨1, 3, 100, none, none, [], none, none, none⟩⟩,
          ⟨"b", 18, ⟨2, 5, 400, none, none, [], none, none, none⟩⟩]
        none).e_k_ij.getD 0 []).getD 1 0 =
      Real.sqrt (((PcSaftParameters.from_records
        [⟨"a", 16, ⟨1, 3, 100, none, none, [], none, none, none⟩⟩,
          ⟨"b", 18, ⟨2, 5, 400, none, none, [], none, none, none⟩⟩]
        none).epsilon_k.getD 0 0 : ℝ) *
        ((PcSaftParameters.from_records
        [⟨"a", 16, ⟨1, 3, 100, none, none, [], none, none, none⟩⟩,
          ⟨"b", 18, ⟨2, 5, 400, none, none, [], none, none, none⟩⟩]
        none).epsilon_k.getD 1 0 : ℝ)) ∧
    ((PcSaftParameters.from_records
        [⟨"a", 16, ⟨1, 3, 100, none, none, [], none, none, none⟩⟩,
          ⟨"b", 18, ⟨2, 5, 400, none, none, [], none, none, none⟩⟩]
        none).e_k_ij.getD 0 []).getD 1 0 =
      ((PcSaftParameters.from_records
        [⟨"a", 16, ⟨1, 3, 100, none, none, [], none, none, none⟩⟩,
          ⟨"b", 18, ⟨2, 5, 400, none, none, [], none, none, none⟩⟩]
        none).e_k_ij.getD 1 []).getD 0 0 :=
  from_records_combining_rules
    [⟨"a", 16, ⟨1, 3, 100, none, none, [], none, none, none⟩⟩,
      ⟨"b", 18, ⟨2, 5, 400, none, none, [], none, none, none⟩⟩]
    none _ rfl 0 1 (by decide) (by decide)

/-- Witness for C10: on a three-state vector, index 1 hits position 1,
index -1 hits position 2, and index 3 is rejected. -/
theorem getitem_spec_witness :
    PyStateVec.getitem ["a", "b", "c"] 1 = Except.ok "b" ∧
    PyStateVec.getitem ["a", "b", "c"] (-1) = Except.ok "c" ∧
    PyStateVec.getitem ["a", "b", "c"] 3 =
      Except.error "StateVec index out of range" :=
  ⟨(getitem_spec ["a", "b", "c"] 1 (by decide) (by decide) (by decide)).1
      ⟨by decide, by decide⟩,
    (getitem_spec ["a", "b", "c"] (-1) (by decide) (by decide) (by decide)).2.1
      ⟨by decide, by decide⟩,
    (getitem_spec ["a", "b", "c"] 3 (by decide) (by decide) (by decide)).2.2
      (Or.inr (by decide))⟩

end Feos
